import Mathlib

/-!
Verification of the wasmer LLVM backend's trampoline generator and
compiler configuration (src/lib/llvm-backend/src/trampolines.rs and
src/lib/llvm-backend/src/config.rs), via a shallow embedding in Lean.

The embedding keeps the source's names and control flow.  LLVM builder
calls are modelled by their observable effect on the trampoline's
shape: which arguments are assembled, at which generic-buffer slot each
parameter is loaded, and at which slot each result is stored.  Rust
panics (`unimplemented!`, `panic!`) and `Err` returns are modelled as
`Except` errors.
-/

namespace Wasmer

/-- WebAssembly value types (`wasmer_runtime_core::types::Type`). -/
inductive Ty where
  | I32
  | I64
  | F32
  | F64
  | V128
deriving DecidableEq, Repr

/-- A function signature: ordered parameter types and result types
(`wasmer_runtime_core::types::FuncSig`, the part used by the trampoline
generator). -/
structure FuncSig where
  params : List Ty
  returns : List Ty
deriving DecidableEq, Repr

/-- LLVM basic types used by the trampoline generator. -/
inductive LLVMType where
  | i32
  | i64
  | f32
  | f64
  | i128
deriving DecidableEq, Repr

/-- Function `type_to_llvm` from trampolines.rs: the LLVM type of each wasm type. -/
def type_to_llvm (ty : Ty) : LLVMType :=
  match ty with
  | Ty.I32 => LLVMType.i32
  | Ty.I64 => LLVMType.i64
  | Ty.F32 => LLVMType.f32
  | Ty.F64 => LLVMType.f64
  | Ty.V128 => LLVMType.i128

/-- The bit-width sequence of a signature's results, exactly as computed
by `generate_trampoline` (trampolines.rs lines 100-108). -/
def func_sig_returns_bitwidths (func_sig : FuncSig) : List Nat :=
  func_sig.returns.map fun ty =>
    match ty with
    | Ty.I32 | Ty.F32 => 32
    | Ty.I64 | Ty.F64 => 64
    | Ty.V128 => 128

/-- The `_is_sret` classification match of `generate_trampoline`
(trampolines.rs lines 110-133): `false` (direct return) exactly on the
fixed allow-list of bit-width sequences, `true` (indirect / struct
return) otherwise. -/
def is_sret_of (bws : List Nat) : Bool :=
  match bws with
  | []
  | [_]
  | [32, 64]
  | [64, 32]
  | [64, 64]
  | [32, 32]
  | [32, 32, 32]
  | [32, 32, 64]
  | [64, 32, 32]
  | [32, 32, 32, 32] => false
  | _ => true

/-- One entry of the argument vector assembled for the call to the real
callee: the hidden struct-return pointer (`build_alloca` result), the
context pointer, or a parameter loaded from slot `slot` of the generic
args buffer through a pointer of the parameter's type. -/
inductive TrampArg where
  | sretAlloca
  | vmctxPtr
  | loadedParam (slot : Nat) (ty : Ty)
deriving DecidableEq, Repr

/-- The parameter-marshalling loop of `generate_trampoline`
(trampolines.rs lines 137-153): each parameter is loaded at the current
slot index `i`; afterwards `i` advances by one, and by one more when the
parameter is a V128. -/
def loadParams (params : List Ty) (i : Nat) : List TrampArg :=
  match params with
  | [] => []
  | param_ty :: rest =>
    TrampArg.loadedParam i param_ty ::
      loadParams rest (let i := i + 1; if param_ty = Ty.V128 then i + 1 else i)

/-- The final value of the slot counter `i` after the parameter loop. -/
def argsIndexAfter (params : List Ty) (i : Nat) : Nat :=
  match params with
  | [] => i
  | param_ty :: rest =>
    argsIndexAfter rest (let i := i + 1; if param_ty = Ty.V128 then i + 1 else i)

/-- Modelled from the spec: `abi::rets_from_call` (src/lib/llvm-backend/src/abi.rs
is not part of the sources) splits the callee's possibly-multi-value
return into its constituent result values, one per declared result type;
we record each value by its LLVM type. -/
def rets_from_call (func_sig : FuncSig) : List LLVMType :=
  func_sig.returns.map type_to_llvm

/-- The result-store loop of `generate_trampoline` (trampolines.rs lines
161-173): each returned value is stored at slot `idx` of the returns
buffer; `idx` then advances by one more when the value's type is i128
(V128), and by one always. -/
def storeRets (rets : List LLVMType) (idx : Nat) : List (Nat × LLVMType) :=
  match rets with
  | [] => []
  | v :: rest =>
    (idx, v) ::
      storeRets rest (let idx := if v = LLVMType.i128 then idx + 1 else idx; idx + 1)

/-- The final value of the slot counter `idx` after the result-store loop. -/
def retsIndexAfter (rets : List LLVMType) (idx : Nat) : Nat :=
  match rets with
  | [] => idx
  | v :: rest =>
    retsIndexAfter rest (let idx := if v = LLVMType.i128 then idx + 1 else idx; idx + 1)

/-- The observable shape of one generated trampoline: the direct/indirect
classification, the field types of the hidden struct-return aggregate
(when one is allocated), the argument vector passed to the callee, and
the (slot, value-type) pairs stored into the returns buffer. -/
structure Trampoline where
  isSret : Bool
  sretFieldTypes : Option (List LLVMType)
  argsVec : List TrampArg
  retStores : List (Nat × LLVMType)
deriving DecidableEq, Repr

/-- The body of `generate_trampoline` after the parameter destructuring
(trampolines.rs lines 90-176), as a function of the signature alone:
classify the return, allocate the struct-return aggregate and push its
address first when the classification is indirect, push the context
pointer, load the parameters in declaration order, and store the results. -/
def trampolineShape (func_sig : FuncSig) : Trampoline :=
  let bws := func_sig_returns_bitwidths func_sig
  let is_sret := is_sret_of bws
  let sret_fields :=
    if is_sret then some (func_sig.returns.map type_to_llvm) else none
  let args_vec :=
    (if is_sret then [TrampArg.sretAlloca] else []) ++
      TrampArg.vmctxPtr :: loadParams func_sig.params 0
  { isSret := is_sret
    sretFieldTypes := sret_fields
    argsVec := args_vec
    retStores := storeRets (rets_from_call func_sig) 0 }

/-- Function `generate_trampoline` (trampolines.rs lines 68-177).  Its first step
destructures the trampoline function's own parameters; anything but
exactly four (vmctx ptr, func ptr, args ptr, returns ptr) is an `Err`
with a message, before any code is emitted.  We track the trampoline
function's parameters by their count only. -/
def generate_trampoline (trampoline_params : List Unit) (func_sig : FuncSig) :
    Except String Trampoline :=
  match trampoline_params with
  | [_, _, _, _] => Except.ok (trampolineShape func_sig)
  | _ => Except.error "trampoline function unimplemented"

/-- The loop body of `generate_trampolines` (trampolines.rs lines 25-54)
starting at signature index `idx`.  For each signature it adds a
trampoline function named `trmp{index}` (whose parameters are supplied
by LLVM's `get_params`, abstracted as `getParams`) and generates its
body, propagating any generation error with `?`. -/
def generate_trampolines_from (getParams : Nat → List Unit) (sigs : List FuncSig)
    (idx : Nat) : Except String (List (String × Trampoline)) :=
  match sigs with
  | [] => Except.ok []
  | sig :: rest => do
    let t ← generate_trampoline (getParams idx) sig
    let ts ← generate_trampolines_from getParams rest (idx + 1)
    Except.ok (("trmp" ++ toString idx, t) :: ts)

/-- Function `generate_trampolines` (trampolines.rs lines 17-56), over the
module's signature list. -/
def generate_trampolines (getParams : Nat → List Unit) (sigs : List FuncSig) :
    Except String (List (String × Trampoline)) :=
  generate_trampolines_from getParams sigs 0

/-! ### Compiler configuration (config.rs) -/

/-- CPU architectures relevant to the backend's dispatch
(`target_lexicon::Architecture`, the variants the match distinguishes
plus representatives of the catch-all arm). -/
inductive Architecture where
  | X86_64
  | Arm
  | Aarch64
  | Riscv64
  | Powerpc64
deriving DecidableEq, Repr

/-- A target triple, restricted to the field the backend reads. -/
structure Triple where
  architecture : Architecture
deriving DecidableEq, Repr

/-- Hardware capability flags (`wasmer_compiler::CpuFeature`, a subset). -/
inductive CpuFeature where
  | SSE2
  | SSE3
  | SSE41
  | SSE42
  | POPCNT
  | AVX
  | AVX2
  | BMI1
  | BMI2
  | LZCNT
deriving DecidableEq, BEq, Repr

/-- WebAssembly language features (`wasmer_compiler::Features`; its fields
are opaque to this backend, which only defaults and hands them through). -/
structure Features where
  enabled : List String
deriving DecidableEq, Repr

instance : Inhabited Features := ⟨⟨[]⟩⟩

/-- The compilation target (`wasmer_compiler::Target`): a triple plus the
set of detected/declared CPU features. -/
structure Target where
  triple : Triple
  cpu_features : List CpuFeature
deriving DecidableEq, Repr

instance : Inhabited Target := ⟨⟨⟨Architecture.X86_64⟩, []⟩⟩

/-- Type `inkwell::OptimizationLevel` (numeric values as in LLVM). -/
inductive OptimizationLevel where
  | None
  | Less
  | Default
  | Aggressive
deriving DecidableEq, Repr

/-- The LLVM numeric value of each optimization level. -/
def OptimizationLevel.toNat (l : OptimizationLevel) : Nat :=
  match l with
  | OptimizationLevel.None => 0
  | OptimizationLevel.Less => 1
  | OptimizationLevel.Default => 2
  | OptimizationLevel.Aggressive => 3

/-- Type `inkwell::targets::RelocMode`. -/
inductive RelocMode where
  | Default
  | Static
  | PIC
  | DynamicNoPic
deriving DecidableEq, Repr

/-- Type `inkwell::targets::CodeModel`. -/
inductive CodeModel where
  | Default
  | JITDefault
  | Small
  | Kernel
  | Medium
  | Large
deriving DecidableEq, Repr

/-- Struct `LLVMConfig` (config.rs lines 11-29). -/
structure LLVMConfig where
  enable_nan_canonicalization : Bool
  enable_verifier : Bool
  opt_level : OptimizationLevel
  features : Features
  target : Target
deriving DecidableEq, Repr

/-- Constructor `LLVMConfig::new` (config.rs lines 34-42). -/
def LLVMConfig.new : LLVMConfig :=
  { enable_nan_canonicalization := true
    enable_verifier := false
    opt_level := OptimizationLevel.Aggressive
    features := default
    target := default }

/-- Impl `Default for LLVMConfig` (config.rs lines 133-137): delegates to `new`. -/
def LLVMConfig.defaultConfig : LLVMConfig := LLVMConfig.new

/-- Method `LLVMConfig::reloc_mode` (config.rs lines 43-45). -/
def LLVMConfig.reloc_mode (_self : LLVMConfig) : RelocMode := RelocMode.Static

/-- Method `LLVMConfig::code_model` (config.rs lines 47-49). -/
def LLVMConfig.code_model (_self : LLVMConfig) : CodeModel := CodeModel.Large

/-- Errors of target-machine construction.  The source signals them by
panicking (`unimplemented!("target {} not supported", ...)` for an
unmatched architecture, `panic!("The target needs to support AVX2")` for
the feature check); the embedding models the panics as `Except` errors
under the spec's taxonomy names. -/
inductive TargetMachineError where
  | UnsupportedTarget
  | MissingRequiredFeature
deriving DecidableEq, Repr

/-- The constructed machine-code emitter (the arguments the source hands
to `inkwell`'s `create_target_machine`, config.rs lines 91-99). -/
structure TargetMachine where
  triple : Triple
  cpu : String
  features : String
  opt_level : OptimizationLevel
  reloc_mode : RelocMode
  code_model : CodeModel
deriving DecidableEq, Repr

/-- The architecture's display name (`triple.architecture.to_string()`). -/
def Architecture.toString (a : Architecture) : String :=
  match a with
  | Architecture.X86_64 => "x86_64"
  | Architecture.Arm => "arm"
  | Architecture.Aarch64 => "aarch64"
  | Architecture.Riscv64 => "riscv64"
  | Architecture.Powerpc64 => "powerpc64"

/-- Method `LLVMConfig::target_machine` (config.rs lines 52-101): dispatch on
the architecture (the catch-all arm is `unimplemented!`, modelled as
`UnsupportedTarget`), then require AVX2 (its absence panics, modelled as
`MissingRequiredFeature`), translate the features to LLVM strings via
filter-map + join, and construct the machine.  The `inkwell` registry
calls (`from_name`, `create_target_machine`) are external and modelled
as succeeding. -/
def LLVMConfig.target_machine (self : LLVMConfig) :
    Except TargetMachineError TargetMachine := do
  let target := self.target
  let triple := target.triple
  let cpu_features := target.cpu_features
  match triple.architecture with
  | Architecture.X86_64 => pure ()
  | Architecture.Arm => pure ()
  | _ => throw TargetMachineError.UnsupportedTarget
  if !(cpu_features.contains CpuFeature.AVX2) then
    throw TargetMachineError.MissingRequiredFeature
  let llvm_cpu_features := String.intercalate " "
    (cpu_features.filterMap fun feature =>
      match feature with
      | CpuFeature.AVX2 => some "+avx2"
      | _ => none)
  let arch_string := triple.architecture.toString
  pure
    { triple := triple
      cpu := arch_string
      features := llvm_cpu_features
      opt_level := self.opt_level
      reloc_mode := self.reloc_mode
      code_model := self.code_model }

/-- Modelled from the spec: `LLVMCompiler` (src/lib/llvm-backend/src/compiler.rs
is not part of the sources).  `compiler()` "constructs and returns a new
Compiler instance bound to the current snapshot of feature set and
target", so the instance stores its own snapshot of the configuration. -/
structure LLVMCompiler where
  config : LLVMConfig
deriving DecidableEq, Repr

/-- Method `LLVMConfig::compiler` (config.rs lines 128-130), with the `&self`
receiver made explicit: the call returns the new instance together with
the configuration as it stands after the call (a shared borrow cannot
mutate it, so it is returned unchanged). -/
def LLVMConfig.compilerCall (self : LLVMConfig) : LLVMCompiler × LLVMConfig :=
  (LLVMCompiler.mk self, self)

/-! ### Generic argument buffer semantics

The `args_ptr` buffer is untyped memory read as an array of 64-bit
slots; the trampoline forms a typed pointer into it at a computed slot
offset and loads through it (trampolines.rs lines 137-153).  We model
the buffer as a list of 64-bit words (little-endian within a slot, so a
32-bit load reads the low 32 bits of its slot and a 128-bit load reads
two consecutive slots, low slot first). -/

/-- A runtime wasm value, carried as the natural number of its bit
pattern. -/
inductive Value where
  | i32 (v : Nat)
  | i64 (v : Nat)
  | f32 (bits : Nat)
  | f64 (bits : Nat)
  | v128 (v : Nat)
deriving DecidableEq, Repr

/-- The wasm type of a value. -/
def Value.ty (v : Value) : Ty :=
  match v with
  | Value.i32 _ => Ty.I32
  | Value.i64 _ => Ty.I64
  | Value.f32 _ => Ty.F32
  | Value.f64 _ => Ty.F64
  | Value.v128 _ => Ty.V128

/-- A value's bit pattern fits its type's width. -/
def Value.wf (v : Value) : Prop :=
  match v with
  | Value.i32 w => w < 2 ^ 32
  | Value.i64 w => w < 2 ^ 64
  | Value.f32 w => w < 2 ^ 32
  | Value.f64 w => w < 2 ^ 64
  | Value.v128 w => w < 2 ^ 128

instance (v : Value) : Decidable (Value.wf v) := by
  unfold Value.wf
  cases v <;> infer_instance

/-- Modelled from the spec: the caller-side encoding of argument values
into the generic args buffer "per the slot rule (one 64-bit slot per
scalar, two consecutive slots per V128)"; the encoder is part of the
runtime layer, outside these sources.  Scalars occupy the low bits of
their slot; a V128 occupies two slots, low half first. -/
def encodeArgs (vals : List Value) : List Nat :=
  match vals with
  | [] => []
  | Value.i32 v :: rest => v :: encodeArgs rest
  | Value.i64 v :: rest => v :: encodeArgs rest
  | Value.f32 v :: rest => v :: encodeArgs rest
  | Value.f64 v :: rest => v :: encodeArgs rest
  | Value.v128 v :: rest => v % 2 ^ 64 :: v / 2 ^ 64 :: encodeArgs rest

/-- Reading one 64-bit slot of the buffer (out-of-range reads 0). -/
def loadSlot (buf : List Nat) (i : Nat) : Nat := buf.getD i 0

/-- The value read by the trampoline's typed load at slot `i`: the
memory semantics of `build_pointer_cast` + `build_load` on the 64-bit
slot array. -/
def loadValue (buf : List Nat) (i : Nat) (ty : Ty) : Value :=
  match ty with
  | Ty.I32 => Value.i32 (loadSlot buf i % 2 ^ 32)
  | Ty.F32 => Value.f32 (loadSlot buf i % 2 ^ 32)
  | Ty.I64 => Value.i64 (loadSlot buf i % 2 ^ 64)
  | Ty.F64 => Value.f64 (loadSlot buf i % 2 ^ 64)
  | Ty.V128 => Value.v128 ((loadSlot buf i + 2 ^ 64 * loadSlot buf (i + 1)) % 2 ^ 128)

/-- The values the trampoline's argument loads produce from a buffer:
each `loadedParam slot ty` entry of the assembled argument vector is
interpreted at its recorded slot. -/
def decodeLoadedArgs (buf : List Nat) (args : List TrampArg) : List Value :=
  args.filterMap fun a =>
    match a with
    | TrampArg.loadedParam slot ty => some (loadValue buf slot ty)
    | _ => none

/-! ### Spec-side definitions

These follow the specification's words, to be compared with the
definitions translated from the source. -/

/-- From the spec's words: the fixed allow-list of result bit-width
sequences that are returned directly through registers — "empty; single
value of any width; the two-value sequences {32+64, 64+32, 64+64,
32+32}; the three-value sequences {32+32+32, 32+32+64, 64+32+32}; the
four-value sequence {32+32+32+32}". -/
def specDirectReturn (l : List Nat) : Prop :=
  l = [] ∨ l.length = 1 ∨
    l ∈ ([[32, 64], [64, 32], [64, 64], [32, 32], [32, 32, 32], [32, 32, 64],
      [64, 32, 32], [32, 32, 32, 32]] : List (List Nat))

/-- From the spec's words: the number of 64-bit buffer slots a value of
each type consumes — 2 for the vector type, 1 for any scalar type. -/
def slotCost (t : Ty) : Nat :=
  match t with
  | Ty.V128 => 2
  | _ => 1

instance (l : List Nat) : Decidable (specDirectReturn l) := by
  unfold specDirectReturn
  infer_instance

/-- The wasm types of the loaded-parameter entries of an argument
vector, in order. -/
def loadedTypes (args : List TrampArg) : List Ty :=
  args.filterMap fun a =>
    match a with
    | TrampArg.loadedParam _ ty => some ty
    | _ => none

/-! ### Helper lemmas -/

theorem is_sret_of_false_iff (l : List Nat) :
    is_sret_of l = false ↔ specDirectReturn l := by
  unfold is_sret_of specDirectReturn
  split <;> try simp
  rename_i h1 h2 h3 h4 h5 h6 h7 h8 h9 h10
  refine ⟨h1, ?_, h3, h4, h5, h6, h7, h8, h9, h10⟩
  intro hl
  obtain ⟨a, ha⟩ := List.length_eq_one.mp hl
  exact h2 a ha

theorem trampolineShape_isSret (sig : FuncSig) :
    (trampolineShape sig).isSret = is_sret_of (func_sig_returns_bitwidths sig) := rfl

/-- The parameter loop's slot advance equals the claimed per-type cost. -/
theorem param_advance_eq (i : Nat) (t : Ty) :
    (let i := i + 1; if t = Ty.V128 then i + 1 else i) = i + slotCost t := by
  cases t <;> simp [slotCost]

/-- The result loop's slot advance equals the claimed per-type cost. -/
theorem ret_advance_eq (idx : Nat) (t : Ty) :
    (let idx := if type_to_llvm t = LLVMType.i128 then idx + 1 else idx; idx + 1) =
      idx + slotCost t := by
  cases t <;> simp [slotCost, type_to_llvm]

theorem loadParams_get? (ts : List Ty) (i k : Nat) :
    (loadParams ts i).get? k = (ts.get? k).map
      fun ty => TrampArg.loadedParam (i + ((ts.take k).map slotCost).sum) ty := by
  induction ts generalizing i k with
  | nil => simp [loadParams]
  | cons t ts ih =>
    rw [loadParams, param_advance_eq]
    cases k with
    | zero => simp
    | succ k =>
      simp only [List.get?_cons_succ, ih, List.take_succ_cons, List.map_cons,
        List.sum_cons]
      cases ts.get? k with
      | none => simp
      | some a => simp; omega

theorem argsIndexAfter_eq (ts : List Ty) (i : Nat) :
    argsIndexAfter ts i = i + (ts.map slotCost).sum := by
  induction ts generalizing i with
  | nil => simp [argsIndexAfter]
  | cons t ts ih =>
    rw [argsIndexAfter, param_advance_eq]
    simp [ih]
    omega

theorem storeRets_get? (ts : List Ty) (idx k : Nat) :
    (storeRets (ts.map type_to_llvm) idx).get? k = (ts.get? k).map
      fun ty => (idx + ((ts.take k).map slotCost).sum, type_to_llvm ty) := by
  induction ts generalizing idx k with
  | nil => simp [storeRets]
  | cons t ts ih =>
    rw [List.map_cons, storeRets, ret_advance_eq]
    cases k with
    | zero => simp
    | succ k =>
      simp only [List.get?_cons_succ, ih, List.take_succ_cons, List.map_cons,
        List.sum_cons]
      cases ts.get? k with
      | none => simp
      | some a => simp; omega

theorem retsIndexAfter_eq (ts : List Ty) (idx : Nat) :
    retsIndexAfter (ts.map type_to_llvm) idx = idx + (ts.map slotCost).sum := by
  induction ts generalizing idx with
  | nil => simp [retsIndexAfter]
  | cons t ts ih =>
    rw [List.map_cons, retsIndexAfter, ret_advance_eq]
    simp [ih]
    omega

theorem loadedTypes_loadParams (ts : List Ty) (i : Nat) :
    loadedTypes (loadParams ts i) = ts := by
  induction ts generalizing i with
  | nil => rfl
  | cons t ts ih => simp [loadParams, loadedTypes] at ih ⊢; exact ih _

/-! ### Claims -/

/-- C1: the trampoline generator classifies the return as direct (no
struct return) if and only if the bit-width sequence of the result types
(I32/F32 → 32, I64/F64 → 64, V128 → 128) is in the fixed allow-list
(empty; any single width; [32,64]; [64,32]; [64,64]; [32,32];
[32,32,32]; [32,32,64]; [64,32,32]; [32,32,32,32]); every other sequence
is classified indirect. -/
theorem c1_direct_return_allowlist (sig : FuncSig) :
    (trampolineShape sig).isSret = false ↔
      specDirectReturn (func_sig_returns_bitwidths sig) := by
  rw [trampolineShape_isSret]
  exact is_sret_of_false_iff _

/-- C2: the slot offset assigned to the k-th parameter equals the sum
over the preceding parameters of (2 for V128, 1 for any scalar type),
the total slot count consumed by the parameter loop equals the sum of
those costs over all parameters, and the result-store loop assigns
slots by the same rule, advancing by 2 for a vector-typed result and by
1 otherwise. -/
theorem c2_slot_width_law (sig : FuncSig) :
    (∀ k, (loadParams sig.params 0).get? k = (sig.params.get? k).map
      fun ty => TrampArg.loadedParam (((sig.params.take k).map slotCost).sum) ty) ∧
    argsIndexAfter sig.params 0 = (sig.params.map slotCost).sum ∧
    (∀ k, (storeRets (rets_from_call sig) 0).get? k = (sig.returns.get? k).map
      fun ty => (((sig.returns.take k).map slotCost).sum, type_to_llvm ty)) ∧
    retsIndexAfter (rets_from_call sig) 0 = (sig.returns.map slotCost).sum := by
  refine ⟨fun k => ?_, ?_, fun k => ?_, ?_⟩
  · simpa using loadParams_get? sig.params 0 k
  · simpa using argsIndexAfter_eq sig.params 0
  · simpa [rets_from_call] using storeRets_get? sig.returns 0 k
  · simpa [rets_from_call] using retsIndexAfter_eq sig.returns 0

/-- A successful `generate_trampoline` produces exactly the shape
determined by the signature. -/
theorem generate_trampoline_ok (ps : List Unit) (sig : FuncSig) (t : Trampoline)
    (h : generate_trampoline ps sig = Except.ok t) : t = trampolineShape sig := by
  unfold generate_trampoline at h
  split at h
  · exact (Except.ok.injEq _ _ ▸ h).symm
  · exact absurd h (by simp)

/-- C3: when the result bit-width sequence is not in the direct-return
allow-list, the trampoline allocates a stack aggregate whose field types
are exactly the result types in declaration order and passes its address
as a synthetic first argument before the context pointer, followed by
the marshaled parameters in declaration order; otherwise the context
pointer is the first argument. -/
theorem c3_sret_aggregate (sig : FuncSig) (ps : List Unit) (t : Trampoline)
    (h : generate_trampoline ps sig = Except.ok t) :
    (¬ specDirectReturn (func_sig_returns_bitwidths sig) →
      t.sretFieldTypes = some (sig.returns.map type_to_llvm) ∧
      t.argsVec = TrampArg.sretAlloca :: TrampArg.vmctxPtr ::
        loadParams sig.params 0) ∧
    (specDirectReturn (func_sig_returns_bitwidths sig) →
      t.argsVec = TrampArg.vmctxPtr :: loadParams sig.params 0) ∧
    loadedTypes (loadParams sig.params 0) = sig.params := by
  rw [generate_trampoline_ok ps sig t h]
  refine ⟨fun hind => ?_, fun hdir => ?_, loadedTypes_loadParams sig.params 0⟩
  · have hs : is_sret_of (func_sig_returns_bitwidths sig) = true := by
      rcases Bool.eq_false_or_eq_true (is_sret_of (func_sig_returns_bitwidths sig)) with h0 | h0
      · exact h0
      · exact absurd ((is_sret_of_false_iff _).mp h0) hind
    simp [trampolineShape, hs]
  · have hs : is_sret_of (func_sig_returns_bitwidths sig) = false :=
      (is_sret_of_false_iff _).mpr hdir
    simp [trampolineShape, hs]

/-- A signature with an indirect (struct) return used to instantiate C3. -/
def sigIndirect : FuncSig :=
  { params := [Ty.I32, Ty.V128, Ty.F64], returns := [Ty.I32, Ty.I64, Ty.I32] }

theorem c3_sret_aggregate_witness :
    (trampolineShape sigIndirect).sretFieldTypes =
      some [LLVMType.i32, LLVMType.i64, LLVMType.i32] ∧
    (trampolineShape sigIndirect).argsVec =
      [TrampArg.sretAlloca, TrampArg.vmctxPtr, TrampArg.loadedParam 0 Ty.I32,
        TrampArg.loadedParam 1 Ty.V128, TrampArg.loadedParam 3 Ty.F64] := by
  have h := c3_sret_aggregate sigIndirect [(), (), (), ()]
    (trampolineShape sigIndirect) rfl
  have h2 := h.1 (by decide)
  refine ⟨?_, ?_⟩
  · rw [h2.1]; rfl
  · rw [h2.2]; rfl

theorem exceptBind_ok {α β ε : Type} (a : α) (f : α → Except ε β) :
    (Except.ok a >>= f : Except ε β) = f a := rfl

theorem exceptBind_error {α β ε : Type} (e : ε) (f : α → Except ε β) :
    ((Except.error e : Except ε α) >>= f) = Except.error e := rfl

/-- A parameter list that is not exactly four long makes
`generate_trampoline` fail with its message. -/
theorem generate_trampoline_bad_arity (ps : List Unit) (sig : FuncSig)
    (h : ps.length ≠ 4) :
    generate_trampoline ps sig = Except.error "trampoline function unimplemented" := by
  unfold generate_trampoline
  split
  · simp at h
  · rfl

/-- Any per-signature error in the loop propagates: the whole module's
trampoline generation returns an error. -/
theorem generate_trampolines_from_error (sigs : List FuncSig)
    (getParams : Nat → List Unit) (idx : Nat)
    (h : ∃ k, k < sigs.length ∧ (getParams (idx + k)).length ≠ 4) :
    ∃ msg, generate_trampolines_from getParams sigs idx = Except.error msg := by
  induction sigs generalizing idx with
  | nil => obtain ⟨k, hk, _⟩ := h; simp at hk
  | cons sig rest ih =>
    rw [generate_trampolines_from]
    cases hgen : generate_trampoline (getParams idx) sig with
    | error msg => exact ⟨msg, by rw [exceptBind_error]⟩
    | ok t =>
      obtain ⟨k, hk, hbad⟩ := h
      cases k with
      | zero =>
        rw [generate_trampoline_bad_arity _ _ (by simpa using hbad)] at hgen
        exact absurd hgen (by simp)
      | succ k =>
        obtain ⟨msg, hmsg⟩ := ih (idx + 1) ⟨k, by simpa using hk, by
          have harith : idx + 1 + k = idx + (k + 1) := by omega
          rw [harith]; exact hbad⟩
        exact ⟨msg, by rw [exceptBind_ok, hmsg, exceptBind_error]⟩

/-- C7: a malformed set of captured parameters (anything but the four
context pointer, function pointer, args pointer, returns pointer) makes
the trampoline builder return a generation-time error with a descriptive
message instead of emitting code, and any such per-signature error
aborts trampoline generation for the whole module. -/
theorem c7_malformed_params (ps : List Unit) (sig : FuncSig)
    (getParams : Nat → List Unit) (sigs : List FuncSig)
    (h : ps.length ≠ 4)
    (h2 : ∃ k, k < sigs.length ∧ (getParams k).length ≠ 4) :
    generate_trampoline ps sig = Except.error "trampoline function unimplemented" ∧
    ∃ msg, generate_trampolines getParams sigs = Except.error msg := by
  refine ⟨generate_trampoline_bad_arity ps sig h, ?_⟩
  exact generate_trampolines_from_error sigs getParams 0 (by simpa using h2)

theorem c7_malformed_params_witness :
    generate_trampoline [(), ()] { params := [], returns := [] } =
      Except.error "trampoline function unimplemented" ∧
    ∃ msg, generate_trampolines (fun _ => [(), ()])
      [{ params := [Ty.I32], returns := [] }] = Except.error msg :=
  c7_malformed_params [(), ()] { params := [], returns := [] }
    (fun _ => [(), ()]) [{ params := [Ty.I32], returns := [] }]
    (by decide) ⟨0, by simp, by decide⟩

/-- A successful module run records, at every position, the trampoline
shape of the signature at that position. -/
theorem generate_trampolines_from_ok_get (sigs : List FuncSig)
    (getParams : Nat → List Unit) (idx : Nat)
    (res : List (String × Trampoline))
    (h : generate_trampolines_from getParams sigs idx = Except.ok res) (k : Nat) :
    (res.get? k).map Prod.snd = (sigs.get? k).map trampolineShape := by
  induction sigs generalizing idx res k with
  | nil =>
    rw [generate_trampolines_from] at h
    cases h
    simp
  | cons sig rest ih =>
    rw [generate_trampolines_from] at h
    cases hgen : generate_trampoline (getParams idx) sig with
    | error msg =>
      rw [hgen, exceptBind_error] at h
      exact absurd h (by simp)
    | ok t =>
      rw [hgen, exceptBind_ok] at h
      cases hrec : generate_trampolines_from getParams rest (idx + 1) with
      | error msg =>
        rw [hrec, exceptBind_error] at h
        exact absurd h (by simp)
      | ok ts =>
        rw [hrec, exceptBind_ok] at h
        have hres : res = ("trmp" ++ toString idx, t) :: ts := by
          cases h
          rfl
        subst hres
        cases k with
        | zero => simpa using (generate_trampoline_ok _ _ _ hgen)
        | succ k => simpa using ih (idx + 1) ts hrec k

/-- C8: for any two signatures with identical ordered parameter-type and
result-type sequences, module trampoline generation produces identical
trampolines (classification, argument vector, slot layout), regardless
of the signature index, position, or surrounding module. -/
theorem c8_shape_pure_function (getParams getParams2 : Nat → List Unit)
    (sigs sigs2 : List FuncSig) (res res2 : List (String × Trampoline))
    (i j : Nat) (sig sig2 : FuncSig)
    (h1 : generate_trampolines getParams sigs = Except.ok res)
    (h2 : generate_trampolines getParams2 sigs2 = Except.ok res2)
    (hi : sigs.get? i = some sig) (hj : sigs2.get? j = some sig2)
    (hp : sig.params = sig2.params) (hr : sig.returns = sig2.returns) :
    (res.get? i).map Prod.snd = (res2.get? j).map Prod.snd := by
  have e1 := generate_trampolines_from_ok_get sigs getParams 0 res h1 i
  have e2 := generate_trampolines_from_ok_get sigs2 getParams2 0 res2 h2 j
  have hsig : sig = sig2 := by
    cases sig; cases sig2
    simp only [FuncSig.mk.injEq]
    exact ⟨hp, hr⟩
  rw [e1, e2, hi, hj, hsig]

theorem c8_shape_pure_function_witness :
    (([("trmp0", trampolineShape { params := [Ty.I32], returns := [Ty.F64] }),
       ("trmp1", trampolineShape { params := [Ty.V128], returns := [Ty.I32] })] :
        List (String × Trampoline)).get? 1).map Prod.snd =
    (([("trmp0", trampolineShape { params := [Ty.V128], returns := [Ty.I32] })] :
        List (String × Trampoline)).get? 0).map Prod.snd :=
  c8_shape_pure_function (fun _ => [(), (), (), ()]) (fun _ => [(), (), (), ()])
    [{ params := [Ty.I32], returns := [Ty.F64] },
     { params := [Ty.V128], returns := [Ty.I32] }]
    [{ params := [Ty.V128], returns := [Ty.I32] }]
    _ _ 1 0 { params := [Ty.V128], returns := [Ty.I32] }
    { params := [Ty.V128], returns := [Ty.I32] }
    rfl rfl rfl rfl rfl rfl

theorem loadSlot_append (pre l : List Nat) (j : Nat) :
    loadSlot (pre ++ l) (pre.length + j) = loadSlot l j := by
  unfold loadSlot
  rw [List.getD_append_right pre l 0 (pre.length + j) (by omega)]
  congr 1
  omega

theorem loadParams_cons (t : Ty) (ts : List Ty) (i : Nat) :
    loadParams (t :: ts) i = TrampArg.loadedParam i t :: loadParams ts (i + slotCost t) := by
  rw [loadParams, param_advance_eq]

theorem decodeLoadedArgs_cons (buf : List Nat) (s : Nat) (ty : Ty)
    (args : List TrampArg) :
    decodeLoadedArgs buf (TrampArg.loadedParam s ty :: args) =
      loadValue buf s ty :: decodeLoadedArgs buf args := by
  simp [decodeLoadedArgs]

/-- Generalized round trip: decoding the trampoline's loads against a
buffer that holds the encoded values after `pre` recovers the values. -/
theorem roundtrip_from (vals : List Value) (pre : List Nat)
    (h : ∀ v ∈ vals, v.wf) :
    decodeLoadedArgs (pre ++ encodeArgs vals)
      (loadParams (vals.map Value.ty) pre.length) = vals := by
  induction vals generalizing pre with
  | nil => simp [encodeArgs, loadParams, decodeLoadedArgs]
  | cons v rest ih =>
    have hv : v.wf := h v (by simp)
    have hrest : ∀ u ∈ rest, u.wf := fun u hu => h u (by simp [hu])
    cases v with
    | i32 w =>
      simp only [Value.wf] at hv
      rw [encodeArgs, List.map_cons]
      show decodeLoadedArgs (pre ++ w :: encodeArgs rest)
        (loadParams (Ty.I32 :: rest.map Value.ty) pre.length) = Value.i32 w :: rest
      rw [loadParams_cons, decodeLoadedArgs_cons]
      have hhead : loadValue (pre ++ w :: encodeArgs rest) pre.length Ty.I32 =
          Value.i32 w := by
        have e := loadSlot_append pre (w :: encodeArgs rest) 0
        rw [Nat.add_zero] at e
        simp only [loadValue]
        rw [e]
        simp only [loadSlot, List.getD_cons_zero]
        rw [Nat.mod_eq_of_lt hv]
      have htail : decodeLoadedArgs (pre ++ w :: encodeArgs rest)
          (loadParams (rest.map Value.ty) (pre.length + slotCost Ty.I32)) = rest := by
        have e : pre ++ w :: encodeArgs rest = (pre ++ [w]) ++ encodeArgs rest := by
          simp
        have e2 : pre.length + slotCost Ty.I32 = (pre ++ [w]).length := by
          simp [slotCost]
        rw [e, e2]
        exact ih (pre ++ [w]) hrest
      rw [hhead, htail]
    | i64 w =>
      simp only [Value.wf] at hv
      rw [encodeArgs, List.map_cons]
      show decodeLoadedArgs (pre ++ w :: encodeArgs rest)
        (loadParams (Ty.I64 :: rest.map Value.ty) pre.length) = Value.i64 w :: rest
      rw [loadParams_cons, decodeLoadedArgs_cons]
      have hhead : loadValue (pre ++ w :: encodeArgs rest) pre.length Ty.I64 =
          Value.i64 w := by
        have e := loadSlot_append pre (w :: encodeArgs rest) 0
        rw [Nat.add_zero] at e
        simp only [loadValue]
        rw [e]
        simp only [loadSlot, List.getD_cons_zero]
        rw [Nat.mod_eq_of_lt hv]
      have htail : decodeLoadedArgs (pre ++ w :: encodeArgs rest)
          (loadParams (rest.map Value.ty) (pre.length + slotCost Ty.I64)) = rest := by
        have e : pre ++ w :: encodeArgs rest = (pre ++ [w]) ++ encodeArgs rest := by
          simp
        have e2 : pre.length + slotCost Ty.I64 = (pre ++ [w]).length := by
          simp [slotCost]
        rw [e, e2]
        exact ih (pre ++ [w]) hrest
      rw [hhead, htail]
    | f32 w =>
      simp only [Value.wf] at hv
      rw [encodeArgs, List.map_cons]
      show decodeLoadedArgs (pre ++ w :: encodeArgs rest)
        (loadParams (Ty.F32 :: rest.map Value.ty) pre.length) = Value.f32 w :: rest
      rw [loadParams_cons, decodeLoadedArgs_cons]
      have hhead : loadValue (pre ++ w :: encodeArgs rest) pre.length Ty.F32 =
          Value.f32 w := by
        have e := loadSlot_append pre (w :: encodeArgs rest) 0
        rw [Nat.add_zero] at e
        simp only [loadValue]
        rw [e]
        simp only [loadSlot, List.getD_cons_zero]
        rw [Nat.mod_eq_of_lt hv]
      have htail : decodeLoadedArgs (pre ++ w :: encodeArgs rest)
          (loadParams (rest.map Value.ty) (pre.length + slotCost Ty.F32)) = rest := by
        have e : pre ++ w :: encodeArgs rest = (pre ++ [w]) ++ encodeArgs rest := by
          simp
        have e2 : pre.length + slotCost Ty.F32 = (pre ++ [w]).length := by
          simp [slotCost]
        rw [e, e2]
        exact ih (pre ++ [w]) hrest
      rw [hhead, htail]
    | f64 w =>
      simp only [Value.wf] at hv
      rw [encodeArgs, List.map_cons]
      show decodeLoadedArgs (pre ++ w :: encodeArgs rest)
        (loadParams (Ty.F64 :: rest.map Value.ty) pre.length) = Value.f64 w :: rest
      rw [loadParams_cons, decodeLoadedArgs_cons]
      have hhead : loadValue (pre ++ w :: encodeArgs rest) pre.length Ty.F64 =
          Value.f64 w := by
        have e := loadSlot_append pre (w :: encodeArgs rest) 0
        rw [Nat.add_zero] at e
        simp only [loadValue]
        rw [e]
        simp only [loadSlot, List.getD_cons_zero]
        rw [Nat.mod_eq_of_lt hv]
      have htail : decodeLoadedArgs (pre ++ w :: encodeArgs rest)
          (loadParams (rest.map Value.ty) (pre.length + slotCost Ty.F64)) = rest := by
        have e : pre ++ w :: encodeArgs rest = (pre ++ [w]) ++ encodeArgs rest := by
          simp
        have e2 : pre.length + slotCost Ty.F64 = (pre ++ [w]).length := by
          simp [slotCost]
        rw [e, e2]
        exact ih (pre ++ [w]) hrest
      rw [hhead, htail]
    | v128 w =>
      simp only [Value.wf] at hv
      rw [encodeArgs, List.map_cons]
      show decodeLoadedArgs (pre ++ w % 2 ^ 64 :: w / 2 ^ 64 :: encodeArgs rest)
        (loadParams (Ty.V128 :: rest.map Value.ty) pre.length) = Value.v128 w :: rest
      rw [loadParams_cons, decodeLoadedArgs_cons]
      have hhead : loadValue (pre ++ w % 2 ^ 64 :: w / 2 ^ 64 :: encodeArgs rest)
          pre.length Ty.V128 = Value.v128 w := by
        have e0 := loadSlot_append pre (w % 2 ^ 64 :: w / 2 ^ 64 :: encodeArgs rest) 0
        have e1 := loadSlot_append pre (w % 2 ^ 64 :: w / 2 ^ 64 :: encodeArgs rest) 1
        rw [Nat.add_zero] at e0
        simp only [loadValue]
        rw [e0, e1]
        simp only [loadSlot, List.getD_cons_zero, List.getD_cons_succ]
        rw [Nat.mod_add_div, Nat.mod_eq_of_lt hv]
      have htail : decodeLoadedArgs (pre ++ w % 2 ^ 64 :: w / 2 ^ 64 :: encodeArgs rest)
          (loadParams (rest.map Value.ty) (pre.length + slotCost Ty.V128)) = rest := by
        have e : pre ++ w % 2 ^ 64 :: w / 2 ^ 64 :: encodeArgs rest =
            (pre ++ [w % 2 ^ 64, w / 2 ^ 64]) ++ encodeArgs rest := by
          simp
        have e2 : pre.length + slotCost Ty.V128 =
            (pre ++ [w % 2 ^ 64, w / 2 ^ 64]).length := by
          simp [slotCost]
        rw [e, e2]
        exact ih (pre ++ [w % 2 ^ 64, w / 2 ^ 64]) hrest
      rw [hhead, htail]

/-- C4: encoding argument values into the generic args buffer by the
slot rule (one 64-bit slot per scalar, two consecutive slots per V128)
and decoding through the generated trampoline's argument loads yields
the original values, for every type and arity. -/
theorem c4_roundtrip (vals : List Value) (rs : List Ty)
    (h : ∀ v ∈ vals, v.wf) :
    decodeLoadedArgs (encodeArgs vals)
      ((trampolineShape { params := vals.map Value.ty, returns := rs }).argsVec) =
      vals := by
  have hdrop : ∀ (b : Bool) (buf : List Nat) (args : List TrampArg),
      decodeLoadedArgs buf
        ((if b then [TrampArg.sretAlloca] else []) ++ TrampArg.vmctxPtr :: args) =
        decodeLoadedArgs buf args := by
    intro b buf args
    cases b <;> simp [decodeLoadedArgs]
  show decodeLoadedArgs (encodeArgs vals)
    ((if is_sret_of (func_sig_returns_bitwidths
        { params := vals.map Value.ty, returns := rs }) then [TrampArg.sretAlloca]
      else []) ++ TrampArg.vmctxPtr :: loadParams (vals.map Value.ty) 0) = vals
  rw [hdrop]
  have e := roundtrip_from vals [] h
  simpa using e

/-- Argument values of every type used to instantiate C4. -/
def sampleVals : List Value :=
  [Value.i32 7, Value.f32 (2 ^ 31 + 5), Value.i64 (2 ^ 63 + 1),
    Value.f64 12345, Value.v128 (2 ^ 100 + 99), Value.i32 0]

/-- The signature whose parameters are the sample values' types. -/
def sampleSig : FuncSig :=
  { params := sampleVals.map Value.ty, returns := [Ty.I32] }

theorem c4_roundtrip_witness :
    (∀ v ∈ sampleVals, v.wf) ∧
    decodeLoadedArgs (encodeArgs sampleVals) ((trampolineShape sampleSig).argsVec) =
      sampleVals :=
  ⟨by decide, c4_roundtrip sampleVals [Ty.I32] (by decide)⟩

theorem throw_eq_error {α ε : Type} (e : ε) :
    (throw e : Except ε α) = Except.error e := rfl

theorem pure_eq_ok {α ε : Type} (a : α) :
    (pure a : Except ε α) = Except.ok a := rfl

theorem exceptMap_error {α β ε : Type} (f : α → β) (e : ε) :
    (f <$> (Except.error e : Except ε α)) = Except.error e := rfl

/-- A configuration whose target architecture has no backend arm and
whose feature set is empty. -/
def riscvConfig : LLVMConfig :=
  { enable_nan_canonicalization := true
    enable_verifier := false
    opt_level := OptimizationLevel.Aggressive
    features := default
    target := { triple := { architecture := Architecture.Riscv64 }, cpu_features := [] } }

/-- An x86-64 configuration whose feature set lacks AVX2. -/
def x86NoAvxConfig : LLVMConfig :=
  { enable_nan_canonicalization := true
    enable_verifier := false
    opt_level := OptimizationLevel.Aggressive
    features := default
    target := { triple := { architecture := Architecture.X86_64 },
                cpu_features := [CpuFeature.SSE2, CpuFeature.AVX] } }

/-- C5: building the target machine for an architecture with no matching
backend (anything other than the x86-64 and Arm dispatch arms) fails
with `UnsupportedTarget`, whatever the feature set — in particular
before the AVX2 feature check runs and before any machine is
constructed. -/
theorem c5_unsupported_target (c : LLVMConfig)
    (h1 : c.target.triple.architecture ≠ Architecture.X86_64)
    (h2 : c.target.triple.architecture ≠ Architecture.Arm) :
    c.target_machine = Except.error TargetMachineError.UnsupportedTarget := by
  unfold LLVMConfig.target_machine
  cases harch : c.target.triple.architecture <;>
    simp_all [throw_eq_error, exceptBind_error]

theorem c5_unsupported_target_witness :
    LLVMConfig.target_machine riscvConfig =
      Except.error TargetMachineError.UnsupportedTarget :=
  c5_unsupported_target riscvConfig (by decide) (by decide)

/-- C6: for a supported architecture, target-machine construction
succeeds if and only if the backend-mandatory AVX2 feature is in the
target's feature set; when it is absent the construction fails with
`MissingRequiredFeature` (eagerly — no machine is built). -/
theorem c6_mandatory_feature (c : LLVMConfig)
    (h : c.target.triple.architecture = Architecture.X86_64 ∨
      c.target.triple.architecture = Architecture.Arm) :
    ((∃ tm, c.target_machine = Except.ok tm) ↔
      c.target.cpu_features.contains CpuFeature.AVX2 = true) ∧
    (c.target.cpu_features.contains CpuFeature.AVX2 = false →
      c.target_machine = Except.error TargetMachineError.MissingRequiredFeature) := by
  unfold LLVMConfig.target_machine
  cases havx : c.target.cpu_features.contains CpuFeature.AVX2 <;>
    rcases h with h | h <;>
    simp_all [throw_eq_error, pure_eq_ok, exceptMap_error, exceptBind_ok,
      exceptBind_error]

theorem c6_mandatory_feature_witness :
    LLVMConfig.target_machine x86NoAvxConfig =
      Except.error TargetMachineError.MissingRequiredFeature :=
  (c6_mandatory_feature x86NoAvxConfig (Or.inl rfl)).2 rfl

/-- C9: `compiler()` does not mutate the configuration (feature set,
target, and option fields are unchanged after the call), it can be
called repeatedly, and each call returns an instance bound to the
snapshot at call time: mutating the configuration afterwards changes
later instances but not the one already produced. -/
theorem c9_compiler_no_mutation (cfg : LLVMConfig)
    (mutate : LLVMConfig → LLVMConfig) :
    cfg.compilerCall.2 = cfg ∧
    cfg.compilerCall.2.features = cfg.features ∧
    cfg.compilerCall.2.target = cfg.target ∧
    cfg.compilerCall.2.opt_level = cfg.opt_level ∧
    cfg.compilerCall.2.enable_nan_canonicalization = cfg.enable_nan_canonicalization ∧
    cfg.compilerCall.2.enable_verifier = cfg.enable_verifier ∧
    cfg.compilerCall.1.config = cfg ∧
    (mutate cfg.compilerCall.2).compilerCall.1.config = mutate cfg ∧
    cfg.compilerCall.1.config = cfg :=
  ⟨rfl, rfl, rfl, rfl, rfl, rfl, rfl, rfl, rfl⟩

/-- C10: a freshly constructed configuration (`LLVMConfig::new`, to which
`Default::default` delegates) enables NaN canonicalization, disables the
verifier, sets the optimization level to Aggressive (the maximum LLVM
level), and uses the default feature set and target. -/
theorem c10_default_config :
    LLVMConfig.new.enable_nan_canonicalization = true ∧
    LLVMConfig.new.enable_verifier = false ∧
    LLVMConfig.new.opt_level = OptimizationLevel.Aggressive ∧
    (∀ l : OptimizationLevel, l.toNat ≤ OptimizationLevel.Aggressive.toNat) ∧
    LLVMConfig.new.features = default ∧
    LLVMConfig.new.target = default ∧
    LLVMConfig.defaultConfig = LLVMConfig.new := by
  refine ⟨rfl, rfl, rfl, fun l => ?_, rfl, rfl, rfl⟩
  cases l <;> simp [OptimizationLevel.toNat]

end Wasmer
